import Mathlib

/-!
Shallow embedding of the yeet-sheet synchronization core of
4coder_loco_yeets.cpp, together with theorems settling the frozen claims
about its specification.

Modelling conventions:
- Document text is a list of characters; a buffer id is a natural number.
- Range_i64 is a pair of offsets; the Ii64 constructor sorts its endpoints
  exactly as the 4coder helper does.
- The host text engine (replace-range edits, marker auto-shift) is external
  to the repository; replaceRange and readRange embed its documented slice
  semantics, and marker auto-shift is kept abstract where a theorem needs it.
- Handlers that in C mutate buffers through the host API are embedded as
  pure functions that either return the updated state or emit the list of
  host operations they perform, in program order.
-/

/-- Range_i64: a pair of document offsets. -/
structure Range_i64 where
  min : Nat
  max : Nat
deriving DecidableEq, Repr

/-- The 4coder Ii64 range constructor: sorts its two endpoints. -/
def Ii64 (a b : Nat) : Range_i64 :=
  if a ≤ b then ⟨a, b⟩ else ⟨b, a⟩

/-- A host position marker: an offset plus the lean direction. -/
structure Marker where
  pos : Nat
  lean_right : Bool
deriving DecidableEq, Repr

instance : Inhabited Marker := ⟨⟨0, false⟩⟩

/-- One extraction record, mirroring struct Loco_Marker_Pair. -/
structure Loco_Marker_Pair where
  start_marker_idx : Nat
  end_marker_idx : Nat
  yeet_start_marker_idx : Nat
  yeet_end_marker_idx : Nat
  buffer : Nat
deriving DecidableEq, Repr

instance : Inhabited Loco_Marker_Pair := ⟨⟨0, 0, 0, 0, 0⟩⟩

/-- The capacity of the pairs array in struct Loco_Yeets (pairs[1024]). -/
def LOCO_YEETS_CAPACITY : Nat := 1024

/-- The pairing table: the logically live prefix of the pairs array. -/
structure Loco_Yeets where
  pairs : List Loco_Marker_Pair
deriving DecidableEq, Repr

/-- Host readRange: the slice of the text between the offsets of a range. -/
def readRange (t : List Char) (r : Range_i64) : List Char :=
  (t.take r.max).drop r.min

/-- Host buffer_replace_range on text: splice the replacement over the range. -/
def replaceRange (t : List Char) (r : Range_i64) (s : List Char) : List Char :=
  t.take r.min ++ s ++ t.drop r.max

/-- loco_make_range_from_markers: resolve two marker indices to a range. -/
def loco_make_range_from_markers (markers : List Marker) (start_idx end_idx : Nat) : Range_i64 :=
  Ii64 (markers.getD start_idx default).pos (markers.getD end_idx default).pos

/-- loco_copy_buffer_text_to_buffer: copy the source range to the end of the
destination buffer wrapped in one leading and two trailing newlines, and
return the insertion range excluding the wrapping newlines. -/
def loco_copy_buffer_text_to_buffer (srcText dstText : List Char) (src_range : Range_i64) :
    List Char × Range_i64 :=
  let copy_string := readRange srcText src_range
  let dst_insert_start := dstText.length
  let newDst := dstText ++ '\n' :: (copy_string ++ ['\n', '\n'])
  let dst_insert_end := newDst.length
  (newDst, Ii64 (dst_insert_start + 1) (dst_insert_end - 2))

/-- loco_append_marker_range: the two markers appended for a range, with
lean_right false at the minimum and lean_right true at the maximum. -/
def loco_append_marker_range_markers (range : Range_i64) : List Marker :=
  [⟨range.min, false⟩, ⟨range.max, true⟩]

lemma take_len_append {α : Type} (l₁ l₂ : List α) : (l₁ ++ l₂).take l₁.length = l₁ :=
  List.take_left l₁ l₂

lemma drop_len_append {α : Type} (l₁ l₂ : List α) : (l₁ ++ l₂).drop l₁.length = l₂ :=
  List.drop_left l₁ l₂

lemma readRange_of_wrap (dst s : List Char) :
    readRange (dst ++ '\n' :: (s ++ ['\n', '\n']))
      ⟨dst.length + 1, dst.length + 1 + s.length⟩ = s := by
  have hsplit : dst ++ '\n' :: (s ++ ['\n', '\n'])
      = ((dst ++ ['\n']) ++ s) ++ ['\n', '\n'] := by
    simp
  have hlen : ((dst ++ ['\n']) ++ s).length = dst.length + 1 + s.length := by
    simp
    omega
  have htake : (((dst ++ ['\n']) ++ s) ++ ['\n', '\n']).take (dst.length + 1 + s.length)
      = (dst ++ ['\n']) ++ s := by
    rw [← hlen]
    exact take_len_append _ _
  have hdroplen : (dst ++ ['\n']).length = dst.length + 1 := by simp
  unfold readRange
  rw [hsplit, htake, ← hdroplen]
  exact drop_len_append _ _

/-- C6: loco_copy_buffer_text_to_buffer appends the copied source range to the
end of the sheet text wrapped with one leading newline and two trailing
newlines; the returned tracked range is exactly the insertion start plus one
up to the insertion end minus two, and reading that range of the new sheet
text yields text identical to the source range text. -/
theorem loco_copy_round_trip (srcText dstText : List Char) (src_range : Range_i64) :
    (loco_copy_buffer_text_to_buffer srcText dstText src_range).1
      = dstText ++ '\n' :: (readRange srcText src_range ++ ['\n', '\n'])
    ∧ (loco_copy_buffer_text_to_buffer srcText dstText src_range).2
      = ⟨dstText.length + 1, dstText.length + 1 + (readRange srcText src_range).length⟩
    ∧ (loco_copy_buffer_text_to_buffer srcText dstText src_range).2.min
      = dstText.length + 1
    ∧ (loco_copy_buffer_text_to_buffer srcText dstText src_range).2.max
      = (loco_copy_buffer_text_to_buffer srcText dstText src_range).1.length - 2
    ∧ readRange (loco_copy_buffer_text_to_buffer srcText dstText src_range).1
        (loco_copy_buffer_text_to_buffer srcText dstText src_range).2
      = readRange srcText src_range := by
  have hlen : (dstText ++ '\n' :: (readRange srcText src_range ++ ['\n', '\n'])).length
      = dstText.length + (readRange srcText src_range).length + 3 := by
    simp
    omega
  have hii : Ii64 (dstText.length + 1)
        ((dstText ++ '\n' :: (readRange srcText src_range ++ ['\n', '\n'])).length - 2)
      = ⟨dstText.length + 1, dstText.length + 1 + (readRange srcText src_range).length⟩ := by
    rw [hlen]
    unfold Ii64
    rw [if_pos (by omega)]
    congr 1
    omega
  refine ⟨rfl, ?_, ?_, ?_, ?_⟩
  · show Ii64 _ _ = _
    exact hii
  · show (Ii64 _ _).min = _
    rw [hii]
  · show (Ii64 _ _).max
      = (dstText ++ '\n' :: (readRange srcText src_range ++ ['\n', '\n'])).length - 2
    rw [hii, hlen]
    show dstText.length + 1 + (readRange srcText src_range).length
      = dstText.length + (readRange srcText src_range).length + 3 - 2
    omega
  · show readRange _ (Ii64 _ _) = _
    rw [hii]
    exact readRange_of_wrap dstText (readRange srcText src_range)

/-- A mirrored replace emitted by the sheet-side edit handler: the target
source buffer, the marker indices of its tracked range (resolved against the
current marker set of that buffer at the moment the replace executes, exactly
as the C code re-reads them per iteration), and the replacement text. -/
structure YeetSideOp where
  buf : Nat
  start_idx : Nat
  end_idx : Nat
  text : List Char
deriving DecidableEq, Repr

/-- A mirrored replace emitted by the source-side edit handler: the target
range inside the sheet buffer (resolved once, before the loop, as the C code
does) and the replacement text. -/
structure OgSideOp where
  range : Range_i64
  text : List Char
deriving DecidableEq, Repr

/-- The per-pair body of the loop in loco_on_yeet_buffer_edit: skip the pair
when its source buffer no longer exists; otherwise, when the edit is strictly
interior to the pair sheet range, emit a replace of the full source range by
the full current text of the sheet range. -/
def loco_yeet_pair_op (bufExists : Nat → Bool) (yeet_markers : List Marker)
    (yeetText : List Char) (old_range new_range : Range_i64)
    (pair : Loco_Marker_Pair) : Option YeetSideOp :=
  if bufExists pair.buffer then
    let yeet_range := loco_make_range_from_markers yeet_markers
      pair.yeet_start_marker_idx pair.yeet_end_marker_idx
    if old_range.min > yeet_range.min ∧ new_range.max < yeet_range.max then
      some ⟨pair.buffer, pair.start_marker_idx, pair.end_marker_idx,
            readRange yeetText yeet_range⟩
    else none
  else none

/-- loco_on_yeet_buffer_edit: the list of mirrored replaces the sheet-side
handler performs, in table order. -/
def loco_on_yeet_buffer_edit (bufExists : Nat → Bool) (pairs : List Loco_Marker_Pair)
    (yeet_markers : List Marker) (yeetText : List Char)
    (old_range new_range : Range_i64) : List YeetSideOp :=
  pairs.filterMap (loco_yeet_pair_op bufExists yeet_markers yeetText old_range new_range)

/-- The per-pair body of the loop in loco_on_original_buffer_edit: skip pairs
of other buffers; otherwise, when the edit is strictly interior to the pair
source range, emit a replace of the full sheet range by the full current text
of the source range. -/
def loco_og_pair_op (yeet_markers og_markers : List Marker) (ogText : List Char)
    (buffer_id : Nat) (old_range new_range : Range_i64)
    (pair : Loco_Marker_Pair) : Option OgSideOp :=
  if pair.buffer = buffer_id then
    let og_range := loco_make_range_from_markers og_markers
      pair.start_marker_idx pair.end_marker_idx
    if old_range.min > og_range.min ∧ new_range.max < og_range.max then
      some ⟨loco_make_range_from_markers yeet_markers
              pair.yeet_start_marker_idx pair.yeet_end_marker_idx,
            readRange ogText og_range⟩
    else none
  else none

/-- loco_on_original_buffer_edit: early exit when the sheet buffer does not
exist, when the edited buffer is the sheet itself, or when the edited buffer
appears in no pair; otherwise the list of mirrored replaces, in table order. -/
def loco_on_original_buffer_edit (yeet_exists : Bool) (yeetBuf : Nat)
    (pairs : List Loco_Marker_Pair) (yeet_markers og_markers : List Marker)
    (ogText : List Char) (buffer_id : Nat)
    (old_range new_range : Range_i64) : List OgSideOp :=
  if yeet_exists = false ∨ buffer_id = yeetBuf then []
  else if pairs.any (fun p => p.buffer = buffer_id) = false then []
  else pairs.filterMap (loco_og_pair_op yeet_markers og_markers ogText buffer_id
    old_range new_range)

lemma og_handler_eq_filterMap (yeetBuf : Nat) (pairs : List Loco_Marker_Pair)
    (yeet_markers og_markers : List Marker) (ogText : List Char) (buffer_id : Nat)
    (old_range new_range : Range_i64) (hny : ¬ buffer_id = yeetBuf) :
    loco_on_original_buffer_edit true yeetBuf pairs yeet_markers og_markers ogText
      buffer_id old_range new_range
    = pairs.filterMap
        (loco_og_pair_op yeet_markers og_markers ogText buffer_id old_range new_range) := by
  unfold loco_on_original_buffer_edit
  rw [if_neg (by simp [hny])]
  by_cases hmem : pairs.any (fun p => p.buffer = buffer_id) = false
  · rw [if_pos hmem]
    induction pairs with
    | nil => rfl
    | cons p rest ih =>
        simp only [List.any_cons, Bool.or_eq_false_iff] at hmem
        rw [List.filterMap_cons]
        have hp : loco_og_pair_op yeet_markers og_markers ogText buffer_id
            old_range new_range p = none := by
          unfold loco_og_pair_op
          rw [if_neg (by simpa using hmem.1)]
        rw [hp]
        exact ih hmem.2
  · rw [if_neg hmem]

/-- C1: on either side, the Sync Engine propagates the edit for a pair exactly
when the edit is strictly interior to the tracked range on the edited side
(old min strictly greater than the range min and new max strictly below the
range max); when it propagates, it replaces the entire counterpart range with
the full current text of the tracked range on the edited side, and a boundary
edit emits no operation for that pair, so the counterpart is left unchanged. -/
theorem loco_sync_propagates_iff_strict_interior
    (bufExists : Nat → Bool) (yeet_markers og_markers : List Marker)
    (yeetText ogText : List Char) (old_range new_range : Range_i64)
    (pair : Loco_Marker_Pair) (buffer_id yeetBuf : Nat)
    (hex : bufExists pair.buffer = true) (hb : pair.buffer = buffer_id)
    (hny : ¬ buffer_id = yeetBuf) :
    (loco_yeet_pair_op bufExists yeet_markers yeetText old_range new_range pair
      = if old_range.min > (loco_make_range_from_markers yeet_markers
            pair.yeet_start_marker_idx pair.yeet_end_marker_idx).min
          ∧ new_range.max < (loco_make_range_from_markers yeet_markers
            pair.yeet_start_marker_idx pair.yeet_end_marker_idx).max
        then some ⟨pair.buffer, pair.start_marker_idx, pair.end_marker_idx,
               readRange yeetText (loco_make_range_from_markers yeet_markers
                 pair.yeet_start_marker_idx pair.yeet_end_marker_idx)⟩
        else none)
    ∧ (loco_og_pair_op yeet_markers og_markers ogText buffer_id old_range new_range pair
      = if old_range.min > (loco_make_range_from_markers og_markers
            pair.start_marker_idx pair.end_marker_idx).min
          ∧ new_range.max < (loco_make_range_from_markers og_markers
            pair.start_marker_idx pair.end_marker_idx).max
        then some ⟨loco_make_range_from_markers yeet_markers
                 pair.yeet_start_marker_idx pair.yeet_end_marker_idx,
               readRange ogText (loco_make_range_from_markers og_markers
                 pair.start_marker_idx pair.end_marker_idx)⟩
        else none)
    ∧ (old_range.min = (loco_make_range_from_markers yeet_markers
          pair.yeet_start_marker_idx pair.yeet_end_marker_idx).min →
        loco_yeet_pair_op bufExists yeet_markers yeetText old_range new_range pair = none)
    ∧ (new_range.max = (loco_make_range_from_markers og_markers
          pair.start_marker_idx pair.end_marker_idx).max →
        loco_og_pair_op yeet_markers og_markers ogText buffer_id old_range new_range pair
          = none)
    ∧ (∀ pairs : List Loco_Marker_Pair,
        loco_on_yeet_buffer_edit bufExists pairs yeet_markers yeetText old_range new_range
          = pairs.filterMap
              (loco_yeet_pair_op bufExists yeet_markers yeetText old_range new_range))
    ∧ (∀ pairs : List Loco_Marker_Pair,
        loco_on_original_buffer_edit true yeetBuf pairs yeet_markers og_markers ogText
            buffer_id old_range new_range
          = pairs.filterMap
              (loco_og_pair_op yeet_markers og_markers ogText buffer_id old_range
                new_range)) := by
  refine ⟨?_, ?_, ?_, ?_, fun pairs => rfl, fun pairs =>
    og_handler_eq_filterMap yeetBuf pairs yeet_markers og_markers ogText buffer_id
      old_range new_range hny⟩
  · unfold loco_yeet_pair_op
    rw [if_pos hex]
  · unfold loco_og_pair_op
    rw [if_pos hb]
  · intro hmin
    unfold loco_yeet_pair_op
    rw [if_pos hex, if_neg (by omega)]
  · intro hmax
    unfold loco_og_pair_op
    rw [if_pos hb, if_neg (by omega)]

/-- Concrete instantiation of the strict-interior propagation theorem: one
pair tracking sheet range (2, 8) and source range (5, 11); an edit with old
range (3, 4) and new range (3, 5) is strictly interior on the sheet side and
is propagated as a full-text replace, while an edit whose old minimum sits
exactly on the range minimum emits nothing. -/
theorem loco_sync_propagates_iff_strict_interior_witness :
    ((fun _ => true) : Nat → Bool) ((⟨0, 1, 0, 1, 7⟩ : Loco_Marker_Pair)).buffer = true
    ∧ (⟨0, 1, 0, 1, 7⟩ : Loco_Marker_Pair).buffer = 7
    ∧ ¬ (7 = 0)
    ∧ loco_yeet_pair_op (fun _ => true) [⟨2, false⟩, ⟨8, true⟩]
        ('a' :: 'b' :: 'c' :: 'd' :: 'e' :: 'f' :: 'g' :: 'h' :: 'i' :: [])
        ⟨3, 4⟩ ⟨3, 5⟩ ⟨0, 1, 0, 1, 7⟩
      = some ⟨7, 0, 1, 'c' :: 'd' :: 'e' :: 'f' :: 'g' :: 'h' :: []⟩ := by
  have h := loco_sync_propagates_iff_strict_interior
    (fun _ => true) [⟨2, false⟩, ⟨8, true⟩] [⟨5, false⟩, ⟨11, true⟩]
    ('a' :: 'b' :: 'c' :: 'd' :: 'e' :: 'f' :: 'g' :: 'h' :: 'i' :: [])
    [] ⟨3, 4⟩ ⟨3, 5⟩ ⟨0, 1, 0, 1, 7⟩ 7 0 rfl rfl (by decide)
  refine ⟨rfl, rfl, by decide, ?_⟩
  rw [h.1]
  decide

/-- The editor state the edit-event hook touches: the global re-entrancy flag
lock_yeet_buffer, per-buffer text and marker sets, buffer existence, the
pairing table attached to the sheet, and the id of the sheet buffer. -/
structure SyncWorld where
  lock_yeet_buffer : Bool
  docs : Nat → List Char
  markers : Nat → List Marker
  bufExists : Nat → Bool
  pairs : List Loco_Marker_Pair
  yeetBuf : Nat

/-- Apply one sheet-side mirror replace: resolve the target source range from
the current markers of the target buffer, splice the text, and let the host
adjust the markers of the edited buffer (the host marker auto-shift is the
abstract parameter shift). The lock flag is untouched. -/
def applyYeetOp (shift : List Marker → Range_i64 → Nat → List Marker)
    (w : SyncWorld) (op : YeetSideOp) : SyncWorld :=
  let og_range := loco_make_range_from_markers (w.markers op.buf) op.start_idx op.end_idx
  { w with
    docs := fun b => if b = op.buf then replaceRange (w.docs op.buf) og_range op.text
      else w.docs b,
    markers := fun b => if b = op.buf then shift (w.markers op.buf) og_range op.text.length
      else w.markers b }

/-- Apply the sheet-side mirror replaces in order. -/
def applyYeetOps (shift : List Marker → Range_i64 → Nat → List Marker)
    (w : SyncWorld) (ops : List YeetSideOp) : SyncWorld :=
  ops.foldl (applyYeetOp shift) w

/-- Apply one source-side mirror replace: splice the text over the already
resolved range inside the sheet buffer and let the host adjust the sheet
markers. The lock flag is untouched. -/
def applyOgOp (shift : List Marker → Range_i64 → Nat → List Marker)
    (w : SyncWorld) (op : OgSideOp) : SyncWorld :=
  { w with
    docs := fun b => if b = w.yeetBuf then replaceRange (w.docs w.yeetBuf) op.range op.text
      else w.docs b,
    markers := fun b => if b = w.yeetBuf then
        shift (w.markers w.yeetBuf) op.range op.text.length
      else w.markers b }

/-- Apply the source-side mirror replaces in order. -/
def applyOgOps (shift : List Marker → Range_i64 → Nat → List Marker)
    (w : SyncWorld) (ops : List OgSideOp) : SyncWorld :=
  ops.foldl (applyOgOp shift) w

/-- The state in which the mirror replaces of one edit event execute: the
lock is raised, then the propagation logic of the matching side runs. -/
def loco_mid_world (shift : List Marker → Range_i64 → Nat → List Marker)
    (w : SyncWorld) (buffer_id : Nat) (old_range new_range : Range_i64) : SyncWorld :=
  let w1 : SyncWorld := { w with lock_yeet_buffer := true }
  if buffer_id = w.yeetBuf then
    applyYeetOps shift w1
      (loco_on_yeet_buffer_edit w1.bufExists w1.pairs (w1.markers w1.yeetBuf)
        (w1.docs w1.yeetBuf) old_range new_range)
  else
    applyOgOps shift w1
      (loco_on_original_buffer_edit (w1.bufExists w1.yeetBuf) w1.yeetBuf w1.pairs
        (w1.markers w1.yeetBuf) (w1.markers buffer_id) (w1.docs buffer_id) buffer_id
        old_range new_range)

/-- loco_on_buffer_edit: the edit-event hook. When the edited buffer is the
sheet and the lock is down, raise the lock, run the sheet-side propagation,
and clear the lock; symmetrically for any other buffer; when the lock is up,
do nothing at all. -/
def loco_on_buffer_edit (shift : List Marker → Range_i64 → Nat → List Marker)
    (w : SyncWorld) (buffer_id : Nat) (old_range new_range : Range_i64) : SyncWorld :=
  if buffer_id = w.yeetBuf then
    if w.lock_yeet_buffer = false then
      { loco_mid_world shift w buffer_id old_range new_range with lock_yeet_buffer := false }
    else w
  else
    if w.lock_yeet_buffer = false then
      { loco_mid_world shift w buffer_id old_range new_range with lock_yeet_buffer := false }
    else w

lemma applyYeetOps_lock (shift : List Marker → Range_i64 → Nat → List Marker)
    (ops : List YeetSideOp) (w : SyncWorld) :
    (applyYeetOps shift w ops).lock_yeet_buffer = w.lock_yeet_buffer := by
  induction ops generalizing w with
  | nil => rfl
  | cons op rest ih => exact (ih (applyYeetOp shift w op)).trans rfl

lemma applyOgOps_lock (shift : List Marker → Range_i64 → Nat → List Marker)
    (ops : List OgSideOp) (w : SyncWorld) :
    (applyOgOps shift w ops).lock_yeet_buffer = w.lock_yeet_buffer := by
  induction ops generalizing w with
  | nil => rfl
  | cons op rest ih => exact (ih (applyOgOp shift w op)).trans rfl

lemma loco_mid_world_lock (shift : List Marker → Range_i64 → Nat → List Marker)
    (w : SyncWorld) (buffer_id : Nat) (old_range new_range : Range_i64) :
    (loco_mid_world shift w buffer_id old_range new_range).lock_yeet_buffer = true := by
  unfold loco_mid_world
  by_cases h : buffer_id = w.yeetBuf
  · rw [if_pos h]
    exact applyYeetOps_lock shift _ _
  · rw [if_neg h]
    exact applyOgOps_lock shift _ _

/-- C2: when the re-entrancy flag is up on entry, the edit-event hook ignores
the event entirely and modifies nothing; otherwise the flag is up during the
propagation and down afterwards, so any mirror edit delivered while the
propagation state is live is itself ignored — one hop of propagation per user
edit. -/
theorem loco_edit_hook_reentrancy_guard
    (shift : List Marker → Range_i64 → Nat → List Marker) (w : SyncWorld)
    (buffer_id : Nat) (old_range new_range : Range_i64) :
    (w.lock_yeet_buffer = true →
      loco_on_buffer_edit shift w buffer_id old_range new_range = w)
    ∧ (w.lock_yeet_buffer = false →
        (loco_on_buffer_edit shift w buffer_id old_range new_range).lock_yeet_buffer = false
        ∧ (loco_mid_world shift w buffer_id old_range new_range).lock_yeet_buffer = true
        ∧ ∀ (buffer_id2 : Nat) (old2 new2 : Range_i64),
            loco_on_buffer_edit shift
                (loco_mid_world shift w buffer_id old_range new_range) buffer_id2 old2 new2
              = loco_mid_world shift w buffer_id old_range new_range) := by
  constructor
  · intro hlock
    unfold loco_on_buffer_edit
    by_cases h : buffer_id = w.yeetBuf
    · rw [if_pos h, if_neg (by rw [hlock]; simp)]
    · rw [if_neg h, if_neg (by rw [hlock]; simp)]
  · intro hlock
    have hmid := loco_mid_world_lock shift w buffer_id old_range new_range
    refine ⟨?_, hmid, ?_⟩
    · unfold loco_on_buffer_edit
      by_cases h : buffer_id = w.yeetBuf
      · rw [if_pos h, if_pos hlock]
      · rw [if_neg h, if_pos hlock]
    · intro buffer_id2 old2 new2
      unfold loco_on_buffer_edit
      by_cases h : buffer_id2 = (loco_mid_world shift w buffer_id old_range new_range).yeetBuf
      · rw [if_pos h, if_neg (by rw [hmid]; simp)]
      · rw [if_neg h, if_neg (by rw [hmid]; simp)]

/-- Concrete instantiation of the re-entrancy guard theorem: in a locked
one-buffer world the hook leaves the world untouched, and in the unlocked
world the flag is down again after the event. -/
theorem loco_edit_hook_reentrancy_guard_witness :
    (SyncWorld.mk true (fun _ => []) (fun _ => []) (fun _ => true) [] 0).lock_yeet_buffer
        = true
    ∧ loco_on_buffer_edit (fun m _ _ => m)
        (SyncWorld.mk true (fun _ => []) (fun _ => []) (fun _ => true) [] 0) 0 ⟨0, 0⟩ ⟨0, 0⟩
        = SyncWorld.mk true (fun _ => []) (fun _ => []) (fun _ => true) [] 0
    ∧ (loco_on_buffer_edit (fun m _ _ => m)
        (SyncWorld.mk false (fun _ => []) (fun _ => []) (fun _ => true) [] 0) 0 ⟨0, 0⟩ ⟨0, 0⟩
        ).lock_yeet_buffer = false :=
  ⟨rfl,
   (loco_edit_hook_reentrancy_guard (fun m _ _ => m)
     (SyncWorld.mk true (fun _ => []) (fun _ => []) (fun _ => true) [] 0)
     0 ⟨0, 0⟩ ⟨0, 0⟩).1 rfl,
   ((loco_edit_hook_reentrancy_guard (fun m _ _ => m)
     (SyncWorld.mk false (fun _ => []) (fun _ => []) (fun _ => true) [] 0)
     0 ⟨0, 0⟩ ⟨0, 0⟩).2 rfl).1⟩

/-- One host operation performed by loco_delete_marker_pair, in program
order: persisting a source-buffer marker set, persisting the sheet marker
set, persisting the pairing table, or the final sheet-side erase together
with the value of the re-entrancy flag at the moment it executes. -/
inductive DelOp where
  | overwriteOgMarkers (buf : Nat)
  | overwriteYeetMarkers
  | overwriteYeets
  | eraseSheet (locked : Bool) (range : Range_i64)
deriving DecidableEq, Repr

/-- The outcome of loco_delete_marker_pair. -/
structure DeleteResult where
  yeets : List Loco_Marker_Pair
  yeet_markers : List Marker
  og_markers : Nat → List Marker
  yeet_range : Range_i64
  yeetText : List Char
  trace : List DelOp

/-- loco_delete_marker_pair: swap-delete pair i from the table, repair the
moved-in pair marker indices (the source-side ones only when the
delete-source-markers flag is set and the moved-in pair references the same
source buffer; the sheet-side ones always), swap-delete the two sheet markers
of the deleted pair (and, under the flag, its two source markers), persist
the marker sets and the table, then resolve the erase range from the sheet
marker array as it stands after the in-place swap writes and erase it from
the sheet text. The caller lock flag is recorded on the erase and never set
by this function. -/
def loco_delete_marker_pair (delete_og_markers : Bool) (lock : Bool)
    (og_markers : Nat → List Marker) (yeet_markers : List Marker)
    (yeetText : List Char) (yeets : List Loco_Marker_Pair) (i : Nat) : DeleteResult :=
  let pair := yeets.getD i default
  let yeets1 := (yeets.set i (yeets.getD (yeets.length - 1) default)).dropLast
  let repair := fun (np : Loco_Marker_Pair) =>
    let np1 := if delete_og_markers ∧ np.buffer = pair.buffer then
        { np with start_marker_idx := pair.start_marker_idx,
                  end_marker_idx := pair.end_marker_idx }
      else np
    { np1 with yeet_start_marker_idx := pair.yeet_start_marker_idx,
               yeet_end_marker_idx := pair.yeet_end_marker_idx }
  let yeets2 := if i < yeets1.length then yeets1.set i (repair (yeets1.getD i default))
    else yeets1
  let cnt := yeet_markers.length
  let ym1 := yeet_markers.set pair.yeet_start_marker_idx (yeet_markers.getD (cnt - 2) default)
  let ym2 := ym1.set pair.yeet_end_marker_idx (ym1.getD (cnt - 1) default)
  let ym3 := ym2.take (cnt - 2)
  let og1 := if delete_og_markers then
      fun b => if b = pair.buffer then
          (let om := og_markers pair.buffer
           let ocnt := om.length
           let o1 := om.set pair.start_marker_idx (om.getD (ocnt - 2) default)
           let o2 := o1.set pair.end_marker_idx (o1.getD (ocnt - 1) default)
           o2.take (ocnt - 2))
        else og_markers b
    else og_markers
  let yeet_range := loco_make_range_from_markers ym2
    pair.yeet_start_marker_idx pair.yeet_end_marker_idx
  let newText := replaceRange yeetText yeet_range []
  { yeets := yeets2,
    yeet_markers := ym3,
    og_markers := og1,
    yeet_range := yeet_range,
    yeetText := newText,
    trace := (if delete_og_markers then [DelOp.overwriteOgMarkers pair.buffer] else [])
      ++ [DelOp.overwriteYeetMarkers, DelOp.overwriteYeets,
          DelOp.eraseSheet lock yeet_range] }

/-- The two-pair sheet state used to evaluate deletion: pair A tracks sheet
range (1, 4) holding abc, pair B tracks sheet range (7, 10) holding xyz. -/
def c3_yeetText : List Char := "\nabc\n\n\nxyz\n\n".toList

/-- The sheet marker set of the two-pair state: slots 0 and 1 bound the range
of pair A, slots 2 and 3 bound the range of pair B. -/
def c3_yeet_markers : List Marker :=
  [⟨1, false⟩, ⟨4, true⟩, ⟨7, false⟩, ⟨10, true⟩]

/-- Pair A: first extraction, source buffer 1, sheet marker slots 0 and 1. -/
def c3_pairA : Loco_Marker_Pair := ⟨0, 1, 0, 1, 1⟩

/-- Pair B: second extraction, source buffer 2, sheet marker slots 2 and 3. -/
def c3_pairB : Loco_Marker_Pair := ⟨0, 1, 2, 3, 2⟩

/-- C3: evaluating loco_delete_marker_pair at the reachable two-pair state
(delete index 0, source-marker deletion disabled) shows the erase range is
resolved from marker slots that were already overwritten with the markers of
the moved-in pair B, so the erase removes the sheet text xyz of pair B at
(7, 10) while the sheet text abc of the deleted pair A is still present at
(1, 4) afterwards — the deleted pair sheet text is not removed and the
remaining pair tracked range is corrupted, contrary to the claim. -/
theorem loco_delete_marker_pair_erases_wrong_range :
    (loco_delete_marker_pair false false (fun _ => []) c3_yeet_markers c3_yeetText
        [c3_pairA, c3_pairB] 0).yeet_range = ⟨7, 10⟩
    ∧ loco_make_range_from_markers c3_yeet_markers c3_pairA.yeet_start_marker_idx
        c3_pairA.yeet_end_marker_idx = ⟨1, 4⟩
    ∧ readRange c3_yeetText ⟨1, 4⟩ = 'a' :: 'b' :: 'c' :: []
    ∧ readRange c3_yeetText ⟨7, 10⟩ = 'x' :: 'y' :: 'z' :: []
    ∧ readRange (loco_delete_marker_pair false false (fun _ => []) c3_yeet_markers
        c3_yeetText [c3_pairA, c3_pairB] 0).yeetText ⟨1, 4⟩ = 'a' :: 'b' :: 'c' :: []
    ∧ (loco_delete_marker_pair false false (fun _ => []) c3_yeet_markers c3_yeetText
        [c3_pairA, c3_pairB] 0).yeetText
      = "\nabc\n\n\n\n\n".toList
    ∧ ((⟨7, 10⟩ : Range_i64) ≠ ⟨1, 4⟩) := by
  refine ⟨by decide, by decide, by decide, by decide, by decide, by decide, by decide⟩

/-- C5 counterexample: at the same concrete two-pair state, called with the
re-entrancy flag down (as both call sites in the source do — neither
loco_yeet_remove_marker_pair nor loco_on_buffer_end raises the lock), the
erase recorded in the operation trace executes with the lock down, refuting
the claim that the erase is performed with the re-entrancy lock held. -/
theorem loco_delete_erase_not_locked :
    (loco_delete_marker_pair false false (fun _ => []) c3_yeet_markers c3_yeetText
        [c3_pairA, c3_pairB] 0).trace
      = [DelOp.overwriteYeetMarkers, DelOp.overwriteYeets,
         DelOp.eraseSheet false ⟨7, 10⟩]
    ∧ (DelOp.eraseSheet false (⟨7, 10⟩ : Range_i64)
        ≠ DelOp.eraseSheet true ⟨7, 10⟩) := by
  exact ⟨by decide, by decide⟩

/-- C5 amended: loco_delete_marker_pair persists the updated marker sets and
the updated pairing table before performing the visible sheet-side erase (the
erase is the last operation in the trace, after every persist), and the erase
executes with whatever lock value the caller holds — the function itself
never raises the re-entrancy lock. -/
theorem loco_delete_persists_before_erase (delete_og_markers lock : Bool)
    (og_markers : Nat → List Marker) (yeet_markers : List Marker)
    (yeetText : List Char) (yeets : List Loco_Marker_Pair) (i : Nat) :
    (loco_delete_marker_pair delete_og_markers lock og_markers yeet_markers yeetText
        yeets i).trace
      = (if delete_og_markers
          then [DelOp.overwriteOgMarkers (yeets.getD i default).buffer] else [])
        ++ [DelOp.overwriteYeetMarkers, DelOp.overwriteYeets,
            DelOp.eraseSheet lock
              (loco_delete_marker_pair delete_og_markers lock og_markers yeet_markers
                yeetText yeets i).yeet_range] := by
  rfl

/-- The per-pair source-side range selection of loco_is_cursor_inside_yeet:
when the active buffer is the sheet, the pair sheet range; otherwise the pair
range inside its own source buffer. -/
def loco_pair_src_range (markers : Nat → List Marker) (yeetBuf activeBuf : Nat)
    (pair : Loco_Marker_Pair) : Range_i64 :=
  let is_yeet_buffer := activeBuf = yeetBuf
  let src_buf := if is_yeet_buffer then yeetBuf else pair.buffer
  let src_start := if is_yeet_buffer then pair.yeet_start_marker_idx else pair.start_marker_idx
  let src_end := if is_yeet_buffer then pair.yeet_end_marker_idx else pair.end_marker_idx
  loco_make_range_from_markers (markers src_buf) src_start src_end

/-- The destination buffer loco_is_cursor_inside_yeet reports on a hit. -/
def loco_pair_dst_buf (yeetBuf activeBuf : Nat) (pair : Loco_Marker_Pair) : Nat :=
  if ¬ activeBuf = yeetBuf then yeetBuf else pair.buffer

/-- The destination range loco_is_cursor_inside_yeet resolves on a hit. -/
def loco_pair_dst_range (markers : Nat → List Marker) (yeetBuf activeBuf : Nat)
    (pair : Loco_Marker_Pair) : Range_i64 :=
  let is_yeet_buffer := activeBuf = yeetBuf
  let dst_buf := loco_pair_dst_buf yeetBuf activeBuf pair
  let dst_start := if ¬ is_yeet_buffer then pair.yeet_start_marker_idx
    else pair.start_marker_idx
  let dst_end := if ¬ is_yeet_buffer then pair.yeet_end_marker_idx else pair.end_marker_idx
  loco_make_range_from_markers (markers dst_buf) dst_start dst_end

/-- loco_is_cursor_inside_yeet: walk the table in order; the first pair whose
source-side range contains the cursor (closed on both ends) yields the
destination buffer and the linearly translated destination offset. -/
def loco_is_cursor_inside_yeet (markers : Nat → List Marker) (yeetBuf activeBuf : Nat) :
    List Loco_Marker_Pair → Nat → Option (Nat × Nat)
  | [], _ => none
  | pair :: rest, cursor_pos =>
    let src_range := loco_pair_src_range markers yeetBuf activeBuf pair
    if cursor_pos ≥ src_range.min ∧ cursor_pos ≤ src_range.max then
      let dst_range := loco_pair_dst_range markers yeetBuf activeBuf pair
      some (loco_pair_dst_buf yeetBuf activeBuf pair,
            dst_range.min + (cursor_pos - src_range.min))
    else loco_is_cursor_inside_yeet markers yeetBuf activeBuf rest cursor_pos

/-- loco_yeet_buffer_range: refuse when the target buffer is the sheet itself
or when the range minimum already falls inside an existing tracked region;
otherwise append the two source markers, copy the wrapped text to the end of
the sheet, append the two sheet markers, and append a new pair recording the
four marker base indices — with no capacity check on the table. -/
def loco_yeet_buffer_range (markers : Nat → List Marker) (yeetBuf activeBuf buffer : Nat)
    (pairs : List Loco_Marker_Pair) (yeetText ogText : List Char) (range : Range_i64) :
    Option (List Loco_Marker_Pair × List Char × Range_i64) :=
  if buffer = yeetBuf
      ∨ (loco_is_cursor_inside_yeet markers yeetBuf activeBuf pairs range.min).isSome then
    none
  else
    let old_marker_idx := (markers buffer).length
    let copied := loco_copy_buffer_text_to_buffer ogText yeetText range
    let old_yeet_marker_idx := (markers yeetBuf).length
    let pair : Loco_Marker_Pair :=
      ⟨old_marker_idx, old_marker_idx + 1, old_yeet_marker_idx, old_yeet_marker_idx + 1,
       buffer⟩
    some (pairs ++ [pair], copied.1, copied.2)

lemma cursor_inside_isSome_iff (markers : Nat → List Marker) (yeetBuf activeBuf : Nat)
    (pairs : List Loco_Marker_Pair) (cursor_pos : Nat) :
    (loco_is_cursor_inside_yeet markers yeetBuf activeBuf pairs cursor_pos).isSome = true
      ↔ ∃ pair ∈ pairs,
          (loco_pair_src_range markers yeetBuf activeBuf pair).min ≤ cursor_pos
          ∧ cursor_pos ≤ (loco_pair_src_range markers yeetBuf activeBuf pair).max := by
  induction pairs with
  | nil =>
      simp [loco_is_cursor_inside_yeet]
  | cons pair rest ih =>
      unfold loco_is_cursor_inside_yeet
      by_cases h : cursor_pos ≥ (loco_pair_src_range markers yeetBuf activeBuf pair).min
          ∧ cursor_pos ≤ (loco_pair_src_range markers yeetBuf activeBuf pair).max
      · rw [if_pos h]
        simp only [Option.isSome_some, true_iff]
        exact ⟨pair, List.mem_cons_self pair rest, h.1, h.2⟩
      · rw [if_neg h]
        rw [ih]
        constructor
        · rintro ⟨p, hp, hmin, hmax⟩
          exact ⟨p, List.mem_cons_of_mem pair hp, hmin, hmax⟩
        · rintro ⟨p, hp, hmin, hmax⟩
          rcases List.mem_cons.mp hp with heq | hmem
          · exact absurd ⟨heq ▸ hmin, heq ▸ hmax⟩ h
          · exact ⟨p, hmem, hmin, hmax⟩

/-- C9: the containment test treats every tracked range as closed on both
ends — the walk reports a hit exactly when some pair source-side range
contains the cursor with large inequalities, so a cursor exactly on the
resolved start or end offset is inside; on a single-pair table a boundary
cursor yields the destination offset dst min plus cursor minus src min; and
loco_yeet_buffer_range refuses an extraction whose range minimum is reported
inside an existing region. -/
theorem loco_cursor_boundary_inside (markers : Nat → List Marker)
    (yeetBuf activeBuf buffer : Nat) (pair : Loco_Marker_Pair)
    (pairs : List Loco_Marker_Pair) (cursor_pos : Nat) (yeetText ogText : List Char)
    (range : Range_i64) :
    ((loco_is_cursor_inside_yeet markers yeetBuf activeBuf pairs cursor_pos).isSome = true
      ↔ ∃ p ∈ pairs,
          (loco_pair_src_range markers yeetBuf activeBuf p).min ≤ cursor_pos
          ∧ cursor_pos ≤ (loco_pair_src_range markers yeetBuf activeBuf p).max)
    ∧ (cursor_pos = (loco_pair_src_range markers yeetBuf activeBuf pair).min →
        loco_is_cursor_inside_yeet markers yeetBuf activeBuf [pair] cursor_pos
          = some (loco_pair_dst_buf yeetBuf activeBuf pair,
              (loco_pair_dst_range markers yeetBuf activeBuf pair).min
                + (cursor_pos
                    - (loco_pair_src_range markers yeetBuf activeBuf pair).min)))
    ∧ (cursor_pos = (loco_pair_src_range markers yeetBuf activeBuf pair).max →
        loco_is_cursor_inside_yeet markers yeetBuf activeBuf [pair] cursor_pos
          = some (loco_pair_dst_buf yeetBuf activeBuf pair,
              (loco_pair_dst_range markers yeetBuf activeBuf pair).min
                + (cursor_pos
                    - (loco_pair_src_range markers yeetBuf activeBuf pair).min)))
    ∧ ((loco_is_cursor_inside_yeet markers yeetBuf activeBuf pairs range.min).isSome = true →
        loco_yeet_buffer_range markers yeetBuf activeBuf buffer pairs yeetText ogText range
          = none) := by
  have hsort : ∀ a b : Nat, (Ii64 a b).min ≤ (Ii64 a b).max := by
    intro a b
    unfold Ii64
    by_cases hab : a ≤ b
    · rw [if_pos hab]
      exact hab
    · rw [if_neg hab]
      exact Nat.le_of_not_le hab
  have hle : (loco_pair_src_range markers yeetBuf activeBuf pair).min
      ≤ (loco_pair_src_range markers yeetBuf activeBuf pair).max := by
    unfold loco_pair_src_range loco_make_range_from_markers
    exact hsort _ _
  refine ⟨cursor_inside_isSome_iff markers yeetBuf activeBuf pairs cursor_pos, ?_, ?_, ?_⟩
  · intro hmin
    unfold loco_is_cursor_inside_yeet
    rw [if_pos (by omega)]
  · intro hmax
    unfold loco_is_cursor_inside_yeet
    rw [if_pos (by omega)]
  · intro hin
    unfold loco_yeet_buffer_range
    rw [if_pos (Or.inr hin)]

/-- Concrete instantiation of the boundary-containment theorem: a pair
tracking source range (5, 11) in buffer 7 with sheet range (2, 8); a cursor
sitting exactly on offset 5 is reported inside and is sent to sheet offset 2,
and extraction of a range starting at 5 is refused. -/
theorem loco_cursor_boundary_inside_witness :
    ((5 : Nat)
      = (loco_pair_src_range
          (fun b => if b = 0 then [⟨2, false⟩, ⟨8, true⟩] else [⟨5, false⟩, ⟨11, true⟩])
          0 7 ⟨0, 1, 0, 1, 7⟩).min)
    ∧ loco_is_cursor_inside_yeet
        (fun b => if b = 0 then [⟨2, false⟩, ⟨8, true⟩] else [⟨5, false⟩, ⟨11, true⟩])
        0 7 [⟨0, 1, 0, 1, 7⟩] 5 = some (0, 2)
    ∧ loco_yeet_buffer_range
        (fun b => if b = 0 then [⟨2, false⟩, ⟨8, true⟩] else [⟨5, false⟩, ⟨11, true⟩])
        0 7 7 [⟨0, 1, 0, 1, 7⟩] [] [] ⟨5, 9⟩ = none := by
  have h := loco_cursor_boundary_inside
    (fun b => if b = 0 then [⟨2, false⟩, ⟨8, true⟩] else [⟨5, false⟩, ⟨11, true⟩])
    0 7 7 ⟨0, 1, 0, 1, 7⟩ [⟨0, 1, 0, 1, 7⟩] 5 [] [] ⟨5, 9⟩
  refine ⟨by decide, ?_, ?_⟩
  · have h2 := h.2.1 (by decide)
    rw [h2]
    decide
  · exact h.2.2.2 (by decide)

/-- The source-buffer marker set used in the capacity evaluation: buffer 5
holds one tracked range (20, 23); every other buffer has no markers. -/
def c4_markers : Nat → List Marker :=
  fun b => if b = 5 then [⟨20, false⟩, ⟨23, true⟩] else []

/-- The pair filling the table in the capacity evaluation. -/
def c4_pair : Loco_Marker_Pair := ⟨0, 1, 0, 1, 5⟩

lemma cursor_inside_replicate_none (markers : Nat → List Marker)
    (yeetBuf activeBuf : Nat) (p : Loco_Marker_Pair) (cursor_pos : Nat)
    (h : ¬ (cursor_pos ≥ (loco_pair_src_range markers yeetBuf activeBuf p).min
        ∧ cursor_pos ≤ (loco_pair_src_range markers yeetBuf activeBuf p).max)) :
    ∀ n : Nat, loco_is_cursor_inside_yeet markers yeetBuf activeBuf
      (List.replicate n p) cursor_pos = none := by
  intro n
  induction n with
  | zero => rfl
  | succ m ih =>
      rw [List.replicate_succ]
      unfold loco_is_cursor_inside_yeet
      rw [if_neg h]
      exact ih

/-- C4: loco_yeet_buffer_range performs no capacity check — on a pairing
table already holding 1024 pairs (the full capacity of the pairs array) the
extraction still succeeds and appends, leaving a table of 1025 pairs; the
slot index it writes, 1024, is not below the array capacity. The claimed
CapacityExceeded failure path does not exist in the code. -/
theorem loco_yeet_buffer_range_no_capacity_check :
    (loco_yeet_buffer_range c4_markers 0 5 5 (List.replicate LOCO_YEETS_CAPACITY c4_pair)
        [] "abc".toList ⟨1, 2⟩).map (fun r => r.1.length)
      = some (LOCO_YEETS_CAPACITY + 1)
    ∧ (loco_yeet_buffer_range c4_markers 0 5 5 (List.replicate LOCO_YEETS_CAPACITY c4_pair)
        [] "abc".toList ⟨1, 2⟩).isSome = true
    ∧ ¬ ((List.replicate LOCO_YEETS_CAPACITY c4_pair).length < LOCO_YEETS_CAPACITY) := by
  have hnone : loco_is_cursor_inside_yeet c4_markers 0 5
      (List.replicate LOCO_YEETS_CAPACITY c4_pair) 1 = none :=
    cursor_inside_replicate_none c4_markers 0 5 c4_pair 1 (by decide) LOCO_YEETS_CAPACITY
  have hcond : ¬ ((5 : Nat) = 0
      ∨ (loco_is_cursor_inside_yeet c4_markers 0 5
          (List.replicate LOCO_YEETS_CAPACITY c4_pair)
          (Range_i64.mk 1 2).min).isSome = true) := by
    intro hor
    rcases hor with h5 | hin
    · exact absurd h5 (by decide)
    · rw [show (Range_i64.mk 1 2).min = 1 from rfl, hnone] at hin
      exact absurd hin (by decide)
  have hres : loco_yeet_buffer_range c4_markers 0 5 5
      (List.replicate LOCO_YEETS_CAPACITY c4_pair) [] "abc".toList ⟨1, 2⟩
      = some (List.replicate LOCO_YEETS_CAPACITY c4_pair
          ++ [⟨(c4_markers 5).length, (c4_markers 5).length + 1, (c4_markers 0).length,
              (c4_markers 0).length + 1, 5⟩],
          (loco_copy_buffer_text_to_buffer "abc".toList [] ⟨1, 2⟩).1,
          (loco_copy_buffer_text_to_buffer "abc".toList [] ⟨1, 2⟩).2) := by
    unfold loco_yeet_buffer_range
    rw [if_neg hcond]
  refine ⟨?_, ?_, ?_⟩
  · rw [hres]
    show some ((List.replicate LOCO_YEETS_CAPACITY c4_pair
        ++ [Loco_Marker_Pair.mk (c4_markers 5).length ((c4_markers 5).length + 1)
            (c4_markers 0).length ((c4_markers 0).length + 1) 5]).length)
      = some (LOCO_YEETS_CAPACITY + 1)
    refine congrArg some ?_
    rw [List.length_append, List.length_replicate]
    rfl
  · rw [hres]
    rfl
  · rw [List.length_replicate]
    decide

/-- Insertion of one pair into a list already sorted by sheet-start marker
index; models the key ordering used by the snapshot-load sort. -/
def loco_sort_insert (p : Loco_Marker_Pair) :
    List Loco_Marker_Pair → List Loco_Marker_Pair
  | [] => [p]
  | q :: rest =>
    if p.yeet_start_marker_idx ≤ q.yeet_start_marker_idx then p :: q :: rest
    else q :: loco_sort_insert p rest

/-- Modelled from the spec: the 4coder library routine sort_pairs_by_key is
not part of this repository; the spec asks for the pairs sorted by original
sheet-start marker index, which this stable insertion sort produces. -/
def loco_sort_pairs_by_key : List Loco_Marker_Pair → List Loco_Marker_Pair
  | [] => []
  | p :: rest => loco_sort_insert p (loco_sort_pairs_by_key rest)

/-- One step of the downward purge loop of loco_load_yeet_snapshot_from_slot:
overwrite slot i with the last slot and drop the last slot. -/
def loco_swap_delete_at (l : List Loco_Marker_Pair) (i : Nat) : List Loco_Marker_Pair :=
  (l.set i (l.getD (l.length - 1) default)).dropLast

/-- The downward loop deleting every pair whose source buffer no longer
exists: index argument n visits slot n - 1 next, exactly as the C loop walks
i from count - 1 down to 0 while count shrinks under it. -/
def loco_purge_go (bufExists : Nat → Bool) :
    Nat → List Loco_Marker_Pair → List Loco_Marker_Pair
  | 0, l => l
  | Nat.succ n, l =>
    loco_purge_go bufExists n
      (if bufExists (l.getD n default).buffer then l else loco_swap_delete_at l n)

/-- Delete all mentions of buffers that no longer exist, as the load routine
does. -/
def loco_purge_dead (bufExists : Nat → Bool) (l : List Loco_Marker_Pair) :
    List Loco_Marker_Pair :=
  loco_purge_go bufExists l.length l

/-- loco_load_yeet_snapshot_from_slot: clear the sheet state entirely (text,
markers, table), sort the saved pairs by sheet-start marker index, drop every
pair whose source buffer no longer exists (by downward swap-delete), then for
each surviving pair in order re-copy its source range to the end of the sheet
and append two fresh sheet markers bounding the insertion — discarding the
fresh marker base index, so every pair keeps the sheet marker indices it had
when the snapshot was saved. Returns the final table, sheet marker set and
sheet text. -/
def loco_load_yeet_snapshot_from_slot (snapshot : Loco_Yeets) (bufExists : Nat → Bool)
    (og_markers : Nat → List Marker) (ogTexts : Nat → List Char) :
    Loco_Yeets × List Marker × List Char :=
  let sorted := loco_sort_pairs_by_key snapshot.pairs
  let purged := loco_purge_dead bufExists sorted
  let inserted := purged.foldl
    (fun (acc : List Char × List Marker) pair =>
      let og_range := loco_make_range_from_markers (og_markers pair.buffer)
        pair.start_marker_idx pair.end_marker_idx
      let copied := loco_copy_buffer_text_to_buffer (ogTexts pair.buffer) acc.1 og_range
      (copied.1, acc.2 ++ loco_append_marker_range_markers copied.2))
    ([], [])
  (⟨purged⟩, inserted.2, inserted.1)

/-- The snapshot used to evaluate loading around a closed buffer: three pairs
saved in sheet order — buffer 1 at sheet marker slots 0 and 1, buffer 2 at
slots 2 and 3, buffer 3 at slots 4 and 5; buffer 2 is closed before the load;
buffers 1 and 3 each hold one three-character tracked range. -/
def c7_snapshot : Loco_Yeets :=
  ⟨[⟨0, 1, 0, 1, 1⟩, ⟨0, 1, 2, 3, 2⟩, ⟨0, 1, 4, 5, 3⟩]⟩

/-- Buffer existence during the evaluated load: buffer 2 was closed. -/
def c7_bufExists : Nat → Bool := fun b => b = 1 ∨ b = 3

/-- Source marker sets during the evaluated load. -/
def c7_og_markers : Nat → List Marker :=
  fun _ => [⟨0, false⟩, ⟨3, true⟩]

/-- Source texts during the evaluated load. -/
def c7_ogTexts : Nat → List Char :=
  fun b => if b = 1 then "abc".toList else "xyz".toList

/-- C7: evaluating loco_load_yeet_snapshot_from_slot at the three-pair
snapshot with buffer 2 closed shows the dropped pair is skipped, but the
surviving pair of buffer 3 keeps its saved sheet marker indices 4 and 5 while
only 4 fresh sheet markers exist after the load, so its sheet range resolves
through the default marker to the empty range (0, 0) and reads back empty
text instead of its source text xyz — the claim that the remaining pairs load
correctly fails on the code. -/
theorem loco_load_snapshot_stale_indices_after_drop :
    (loco_load_yeet_snapshot_from_slot c7_snapshot c7_bufExists c7_og_markers
        c7_ogTexts).1.pairs
      = [⟨0, 1, 0, 1, 1⟩, ⟨0, 1, 4, 5, 3⟩]
    ∧ (loco_load_yeet_snapshot_from_slot c7_snapshot c7_bufExists c7_og_markers
        c7_ogTexts).2.1
      = [⟨1, false⟩, ⟨4, true⟩, ⟨7, false⟩, ⟨10, true⟩]
    ∧ ¬ ((4 : Nat) < (loco_load_yeet_snapshot_from_slot c7_snapshot c7_bufExists
        c7_og_markers c7_ogTexts).2.1.length)
    ∧ loco_make_range_from_markers
        (loco_load_yeet_snapshot_from_slot c7_snapshot c7_bufExists c7_og_markers
          c7_ogTexts).2.1 4 5 = ⟨0, 0⟩
    ∧ readRange
        (loco_load_yeet_snapshot_from_slot c7_snapshot c7_bufExists c7_og_markers
          c7_ogTexts).2.2
        (loco_make_range_from_markers
          (loco_load_yeet_snapshot_from_slot c7_snapshot c7_bufExists c7_og_markers
            c7_ogTexts).2.1 4 5)
      = []
    ∧ readRange (c7_ogTexts 3)
        (loco_make_range_from_markers (c7_og_markers 3) 0 1)
      = 'x' :: 'y' :: 'z' :: []
    ∧ ('x' :: 'y' :: 'z' :: ([] : List Char)) ≠ [] := by
  refine ⟨by decide, by decide, by decide, by decide, by decide, by decide, by decide⟩

/-- The token sub-kinds the tag scanner inspects. -/
inductive Token_Cpp_Kind where
  | LineComment
  | BraceOp
  | BraceCl
  | Other
deriving DecidableEq, Repr

/-- A host token: position, size, sub-kind, the preprocessor-body flag, and
whether the token is whitespace (skipped by the non-whitespace iterator). -/
structure Loco_Token where
  pos : Nat
  size : Nat
  sub_kind : Token_Cpp_Kind
  preproc_body : Bool
  is_ws : Bool
deriving DecidableEq, Repr

/-- The parse states of the tag scanner, mirroring the C enum. -/
inductive Loco_Yeet_Tags_Parse_State where
  | Looking_For_Tag
  | Reading_Word
  | End_Of_Word
  | Looking_For_Comment
  | Looking_For_Scope_Start
  | Looking_For_Scope_End
deriving DecidableEq, Repr

/-- The character the comment scan reads at index i: the byte there, or the
zero sentinel once i reaches the token length. -/
def loco_char_at (s : List Char) (i : Nat) : Char :=
  if i < s.length then s.getD i default else Char.ofNat 0

/-- The alphanumeric test of the comment scan. -/
def loco_is_alphanumeric (c : Char) : Bool :=
  (('a' ≤ c ∧ c ≤ 'z') ∨ ('A' ≤ c ∧ c ≤ 'Z') ∨ ('0' ≤ c ∧ c ≤ '9') : Prop)

/-- The inner loop of the comment scan: at index i, step the small state
machine (an at-sign begins a word after it; a non-alphanumeric character ends
the word), and on word end compare the substring against the tag name; stop
with success on a match, otherwise continue looking for another at-sign. The
fuel counts the remaining loop iterations (the loop runs from 0 through the
token length inclusive, reading the zero sentinel last). -/
def loco_comment_scan_go (tok_str tag_name : List Char) :
    Nat → Nat → Loco_Yeet_Tags_Parse_State → Nat → Nat → Bool
  | 0, _, _, _, _ => false
  | Nat.succ fuel, i, parse_state, tag_start, tag_end =>
    let c := loco_char_at tok_str i
    let next :=
      match parse_state with
      | Loco_Yeet_Tags_Parse_State.Looking_For_Tag =>
          if c = '@' then (Loco_Yeet_Tags_Parse_State.Reading_Word, i + 1, tag_end)
          else (parse_state, tag_start, tag_end)
      | Loco_Yeet_Tags_Parse_State.Reading_Word =>
          if loco_is_alphanumeric c = false then
            (Loco_Yeet_Tags_Parse_State.End_Of_Word, tag_start, i)
          else (parse_state, tag_start, tag_end)
      | _ => (parse_state, tag_start, tag_end)
    if next.1 = Loco_Yeet_Tags_Parse_State.End_Of_Word then
      let sub := readRange tok_str (Ii64 next.2.1 next.2.2)
      if sub = tag_name then true
      else loco_comment_scan_go tok_str tag_name fuel (i + 1)
        Loco_Yeet_Tags_Parse_State.Looking_For_Tag next.2.1 next.2.2
    else loco_comment_scan_go tok_str tag_name fuel (i + 1) next.1 next.2.1 next.2.2

/-- Whether a line-comment token text contains the tag pattern at-sign
followed by the given word. -/
def loco_comment_has_tag (tok_str tag_name : List Char) : Bool :=
  loco_comment_scan_go tok_str tag_name (tok_str.length + 1) 0
    Loco_Yeet_Tags_Parse_State.Looking_For_Tag 0 0

/-- The running state of the outer tag scan: the root parse state, the brace
depth, the pending range minimum recorded when a tagged comment was found,
and the completed ranges in encounter order. -/
structure TagScanState where
  root : Loco_Yeet_Tags_Parse_State
  scope_enter_count : Nat
  pending_min : Nat
  ranges : List Range_i64
deriving DecidableEq, Repr

/-- The loop body of loco_yeet_all_scopes_with_tag for one token: a token
inside a preprocessor body is skipped before any processing; a line comment
while looking for a comment is scanned for the tag (on a match the scope
search begins and the range minimum is pinned at the comment position); an
opening brace starts the depth count at one or deepens it; a closing brace
while looking for the scope end decrements the depth, and on reaching zero
closes the range one past the brace position and returns to looking for a
comment. -/
def loco_process_token (docText tag_name : List Char) (tok : Loco_Token)
    (st : TagScanState) : TagScanState :=
  if tok.preproc_body then st
  else
    let st1 :=
      if tok.sub_kind = Token_Cpp_Kind.LineComment
          ∧ st.root = Loco_Yeet_Tags_Parse_State.Looking_For_Comment then
        let tok_str := readRange docText (Ii64 tok.pos (tok.pos + tok.size))
        if loco_comment_has_tag tok_str tag_name then
          { st with root := Loco_Yeet_Tags_Parse_State.Looking_For_Scope_Start,
                    pending_min := tok.pos }
        else st
      else st
    let st2 :=
      if tok.sub_kind = Token_Cpp_Kind.BraceOp then
        if st1.root = Loco_Yeet_Tags_Parse_State.Looking_For_Scope_Start then
          { st1 with scope_enter_count := 1,
                     root := Loco_Yeet_Tags_Parse_State.Looking_For_Scope_End }
        else if st1.root = Loco_Yeet_Tags_Parse_State.Looking_For_Scope_End then
          { st1 with scope_enter_count := st1.scope_enter_count + 1 }
        else st1
      else st1
    if tok.sub_kind = Token_Cpp_Kind.BraceCl
        ∧ st2.root = Loco_Yeet_Tags_Parse_State.Looking_For_Scope_End then
      let n := st2.scope_enter_count - 1
      if n = 0 then
        { st2 with root := Loco_Yeet_Tags_Parse_State.Looking_For_Comment,
                   scope_enter_count := n,
                   ranges := st2.ranges ++ [⟨st2.pending_min, tok.pos + 1⟩] }
      else { st2 with scope_enter_count := n }
    else st2

/-- The token loop: process the current token, then advance past it skipping
whitespace tokens, as the non-whitespace iterator does; the fuel bounds the
number of processed tokens by the stream length. -/
def loco_scan_tokens_go (docText tag_name : List Char) :
    Nat → List Loco_Token → TagScanState → TagScanState
  | 0, _, st => st
  | _, [], st => st
  | Nat.succ fuel, tok :: rest, st =>
    loco_scan_tokens_go docText tag_name fuel (rest.dropWhile (fun t => t.is_ws))
      (loco_process_token docText tag_name tok st)

/-- loco_yeet_all_scopes_with_tag: the ranges collected by scanning the whole
token stream, starting in the looking-for-comment state. -/
def loco_yeet_all_scopes_with_tag (docText tag_name : List Char)
    (tokens : List Loco_Token) : List Range_i64 :=
  (loco_scan_tokens_go docText tag_name tokens.length tokens
    ⟨Loco_Yeet_Tags_Parse_State.Looking_For_Comment, 0, 0, []⟩).ranges

/-- The example document of the tag-scan claim. -/
def c8_doc : List Char :=
  "// @foo\nvoid f() \x7b int x = 1; \x7b x += 1; \x7d \x7d".toList

/-- The token stream of the example document: the tagged line comment at
position 0 of size 7, ordinary tokens, the function opening brace at 17, an
inner brace pair at 30 and 40, and the function closing brace at 42. -/
def c8_tokens : List Loco_Token :=
  [⟨0, 7, Token_Cpp_Kind.LineComment, false, false⟩,
   ⟨8, 4, Token_Cpp_Kind.Other, false, false⟩,
   ⟨13, 1, Token_Cpp_Kind.Other, false, false⟩,
   ⟨14, 1, Token_Cpp_Kind.Other, false, false⟩,
   ⟨15, 1, Token_Cpp_Kind.Other, false, false⟩,
   ⟨17, 1, Token_Cpp_Kind.BraceOp, false, false⟩,
   ⟨19, 3, Token_Cpp_Kind.Other, false, false⟩,
   ⟨23, 1, Token_Cpp_Kind.Other, false, false⟩,
   ⟨25, 1, Token_Cpp_Kind.Other, false, false⟩,
   ⟨27, 1, Token_Cpp_Kind.Other, false, false⟩,
   ⟨28, 1, Token_Cpp_Kind.Other, false, false⟩,
   ⟨30, 1, Token_Cpp_Kind.BraceOp, false, false⟩,
   ⟨32, 1, Token_Cpp_Kind.Other, false, false⟩,
   ⟨34, 2, Token_Cpp_Kind.Other, false, false⟩,
   ⟨37, 1, Token_Cpp_Kind.Other, false, false⟩,
   ⟨38, 1, Token_Cpp_Kind.Other, false, false⟩,
   ⟨40, 1, Token_Cpp_Kind.BraceCl, false, false⟩,
   ⟨42, 1, Token_Cpp_Kind.BraceCl, false, false⟩]

/-- C8: on the example document and tag foo, the tag scan returns exactly one
range starting at the tagged comment position 0 and ending one past the
closing brace at 42 that returns the brace depth to zero — position 43, not
one past the inner nested brace at 40. -/
theorem loco_tag_scan_example :
    loco_yeet_all_scopes_with_tag c8_doc "foo".toList c8_tokens
      = [⟨0, 43⟩]
    ∧ (43 : Nat) = 42 + 1
    ∧ ((⟨0, 43⟩ : Range_i64) ≠ ⟨0, 41⟩) := by
  refine ⟨by decide, by decide, by decide⟩

/-- C10: a token flagged as preprocessor body is skipped entirely — the scan
state is returned unchanged, so such a token never starts a scope search,
never changes the brace depth, and never closes a discovered range. -/
theorem loco_preproc_body_token_skipped (docText tag_name : List Char)
    (tok : Loco_Token) (st : TagScanState) (h : tok.preproc_body = true) :
    loco_process_token docText tag_name tok st = st := by
  unfold loco_process_token
  rw [if_pos h]

/-- Concrete instantiation of the preprocessor-body skip theorem: a closing
brace token flagged as preprocessor body, met mid scope search at depth one,
leaves the state untouched and closes nothing. -/
theorem loco_preproc_body_token_skipped_witness :
    (Loco_Token.mk 40 1 Token_Cpp_Kind.BraceCl true false).preproc_body = true
    ∧ loco_process_token c8_doc "foo".toList
        ⟨40, 1, Token_Cpp_Kind.BraceCl, true, false⟩
        ⟨Loco_Yeet_Tags_Parse_State.Looking_For_Scope_End, 1, 0, []⟩
      = ⟨Loco_Yeet_Tags_Parse_State.Looking_For_Scope_End, 1, 0, []⟩ :=
  ⟨rfl,
   loco_preproc_body_token_skipped c8_doc "foo".toList
     ⟨40, 1, Token_Cpp_Kind.BraceCl, true, false⟩
     ⟨Loco_Yeet_Tags_Parse_State.Looking_For_Scope_End, 1, 0, []⟩ rfl⟩
